import Mathlib

/-!
Verification development for the QueryChain AI backend (`gemini_backend.js` and the
embedding-backfill script).  The pipelines are embedded shallowly: the document store
is explicit state (`Db`), the language-model calls are oracle parameters (their outputs
are untrusted inputs to the pipeline), and the two security agents — whose decision
rules are fixed by the prompt texts `SECURITY_AGENT_PROMPT` and
`UPDATE_SECURITY_AGENT_PROMPT` in the source — are embedded as the deterministic
functions those prompts specify.  Each pipeline returns its result, the final store
state, and a trace of external events, so ordering properties (what ran before what)
are statable.  Timestamps and network transport are not modelled; `Promise.all` is
modelled by sequencing the two pipelines (the retrieval pipeline only reads the
`managers` collection, which the structured pipeline never writes).
-/

namespace QueryChain

/-- An attribute value of a stored document: a string, an integer, or a numeric
vector (the `docEmbedding` attribute). -/
inductive Value where
  | str (s : String)
  | num (n : Int)
  | vec (xs : List Int)
deriving DecidableEq, BEq, Repr

/-- A document: Mongo `_id` plus an association list of attributes.  The
`docEmbedding` attribute, when present, is stored as a `Value.vec`. -/
structure Doc where
  id : Nat
  attrs : List (String × Value)
deriving DecidableEq, Repr

/-- Lookup of an attribute by key (first binding wins, as in a JSON object). -/
def lookupAttr : List (String × Value) → String → Option Value
  | [], _ => none
  | (k, v) :: rest, key => if k == key then some v else lookupAttr rest key

/-- Mongo `$set` of a single field: replaces the value in place if the key exists
(position preserved, as Mongo does), otherwise appends the field. -/
def setAttr (attrs : List (String × Value)) (k : String) (v : Value) : List (String × Value) :=
  if attrs.any (fun p => p.1 == k) then
    attrs.map (fun p => if p.1 == k then (k, v) else p)
  else
    attrs ++ [(k, v)]

/-- Drop every binding of a key from an attribute list. -/
def eraseKey (k : String) (attrs : List (String × Value)) : List (String × Value) :=
  attrs.filter (fun p => !(p.1 == k))

/-- A single field condition of a Mongo `find` filter, covering the shapes the
query agent is instructed to produce plus the dangerous `$where` shape the
security agent's deny-list names.  `nameRegex pat` stands for the mandated
case-insensitive, whitespace-tolerant anchored pattern
`{ "$regex": "^\\s*pat\\s*$", "$options": "i" }`. -/
inductive Cond where
  | eqv (v : Value)
  | gt (n : Int)
  | inList (vs : List Value)
  | nameRegex (pat : String)
  | whereJs (code : String)
deriving DecidableEq, BEq, Repr

/-- A Mongo `find` filter: a JSON object mapping field names to conditions.
The empty list is the empty filter `{}`, which matches every document. -/
def Filter := List (String × Cond)
deriving instance DecidableEq, BEq, Repr for Filter

/-- Whether one condition holds of an (optional) attribute value.  The anchored
case-insensitive whitespace-tolerant regex is matched as trimmed caseless string
equality, which is exactly the semantics of the pattern family the prompts mandate.
`$where` runs server-side JavaScript, which is not modelled; no theorem below
depends on its match semantics. -/
def condMatches : Cond → Option Value → Bool
  | Cond.eqv v, some w => v == w
  | Cond.eqv _, none => false
  | Cond.gt n, some (Value.num m) => n < m
  | Cond.gt _, _ => false
  | Cond.inList vs, some w => vs.contains w
  | Cond.inList _, none => false
  | Cond.nameRegex pat, some (Value.str s) =>
      s.trim.toLower == pat.trim.toLower
  | Cond.nameRegex _, _ => false
  | Cond.whereJs _, _ => false

/-- A document matches a filter when every field condition holds. -/
def docMatches (f : Filter) (d : Doc) : Bool :=
  f.all (fun p => condMatches p.2 (lookupAttr d.attrs p.1))

/-- A Mongo update document: a list of (operator, assignments) pairs, e.g.
`[("$set", [("CTC", Value.num 70)])]`. -/
def Mutation := List (String × List (String × Value))
deriving instance DecidableEq, BEq, Repr for Mutation

/-- Whether a mutation uses only the `$set` operator. -/
def mutationOnlySet (m : Mutation) : Bool :=
  m.all (fun p => p.1 == "$set")

/-- Apply a mutation to one document.  Only `$set` is given store semantics: in
every run below, non-`$set` operators are rejected by the update security agent
before any store call, so their Mongo semantics are never reached; they are
modelled as leaving the document unchanged. -/
def applyMutation (d : Doc) (m : Mutation) : Doc :=
  { d with attrs := m.foldl (fun acc p =>
      if p.1 == "$set" then p.2.foldl (fun a q => setAttr a q.1 q.2) acc else acc) d.attrs }

/-- `.project({ docEmbedding: 0 })`: drop the embedding attribute from a returned
document. -/
def stripEmbedding (d : Doc) : Doc :=
  { d with attrs := eraseKey "docEmbedding" d.attrs }

/-- A permission record of the `Permissions` collection. -/
structure Perm where
  role : String
  allowedCollections : List String
deriving DecidableEq, Repr

/-- An audit entry of the `AuditLogs` collection (the wall-clock timestamp field
is not modelled; there is no clock in the embedding). -/
inductive AuditEntry where
  | queryEntry (userId role userInput : String) (mongoQuery : Filter) (results : Nat)
  | updateEntry (userId role userInput : String)
      (filter : Filter) (update : Mutation) (modifiedCount : Nat)
deriving DecidableEq, Repr

/-- The document store: named document collections plus the typed `Permissions`
and `AuditLogs` collections. -/
structure Db where
  colls : List (String × List Doc)
  permissions : List Perm
  auditLogs : List AuditEntry
deriving DecidableEq, Repr

/-- The documents of a named collection (an absent name is an empty collection). -/
def getCollList : List (String × List Doc) → String → List Doc
  | [], _ => []
  | (name, docs) :: rest, c => if name == c then docs else getCollList rest c

/-- Replace the contents of a named collection. -/
def setCollList : List (String × List Doc) → String → List Doc → List (String × List Doc)
  | [], c, l => [(c, l)]
  | (name, docs) :: rest, c, l =>
      if name == c then (name, l) :: rest else (name, docs) :: setCollList rest c l

def getColl (db : Db) (c : String) : List Doc := getCollList db.colls c

def setColl (db : Db) (c : String) (l : List Doc) : Db :=
  { db with colls := setCollList db.colls c l }

/-- `db.collection("Permissions").findOne({ role })`. -/
def findPerm (db : Db) (role : String) : Option Perm :=
  db.permissions.find? (fun p => p.role == role)

/-- The permission gate of both pipelines: a record for the role must exist and
list either the wildcard or the target collection. -/
def hasPermission (db : Db) (role collectionName : String) : Bool :=
  match findPerm db role with
  | none => false
  | some p => p.allowedCollections.contains "*" || p.allowedCollections.contains collectionName

/-- `db.collection("AuditLogs").insertOne(entry)`. -/
def insertAudit (db : Db) (e : AuditEntry) : Db :=
  { db with auditLogs := db.auditLogs ++ [e] }

/-- The caller identity threaded through the pipelines. -/
structure User where
  id : String
  role : String
deriving DecidableEq, Repr

/-- An external event of a pipeline run, in order of occurrence. -/
inductive Event where
  | modelCall (agent : String)
  | embedCall
  | permRead (role : String)
  | find (coll : String)
  | vectorSearch (coll : String)
  | updateMany (coll : String)
  | updateOne (coll : String) (id : Nat)
  | auditInsert
deriving DecidableEq, Repr

/-- The error kinds the embedded pipelines can throw. -/
inductive PipeError where
  | securityRejected (reason : String)
  | accessDenied (role coll : String)
deriving DecidableEq, Repr

/-- Decidable equality of `Except` values, so concrete pipeline outcomes can be
settled by `decide`. -/
instance instDecEqExceptQC {ε α : Type} [DecidableEq ε] [DecidableEq α] :
    DecidableEq (Except ε α) := fun x y =>
  match x, y with
  | Except.ok a, Except.ok b =>
      if h : a = b then isTrue (by rw [h])
      else isFalse (by intro hc; injection hc; contradiction)
  | Except.error a, Except.error b =>
      if h : a = b then isTrue (by rw [h])
      else isFalse (by intro hc; injection hc; contradiction)
  | Except.ok _, Except.error _ => isFalse (by intro hc; injection hc)
  | Except.error _, Except.ok _ => isFalse (by intro hc; injection hc)

/-- The outcome of one pipeline invocation: the returned (or thrown) result, the
final store state, and the trace of external events up to the return or throw. -/
structure Outcome (α : Type) where
  result : Except PipeError α
  db : Db
  trace : List Event

/-- The `{ isSafe, reason }` object both security agents return. -/
structure SecurityCheck where
  isSafe : Bool
  reason : String
deriving DecidableEq, Repr

/-- The find-filter security agent, embedded from `SECURITY_AGENT_PROMPT`: a
filter is safe when it uses only find operators (equality, `$gt`, `$in`,
`$regex`); `$where`-style server-side code execution is dangerous. -/
def secAgent (f : Filter) : SecurityCheck :=
  if f.all (fun p => match p.2 with | Cond.whereJs _ => false | _ => true) then
    { isSafe := true, reason := "Query uses safe find operators." }
  else
    { isSafe := false, reason := "Query contains potentially dangerous operators." }

/-- The `{ filter, update }` pair the update agent returns. -/
structure UpdateQuery where
  filter : Filter
  update : Mutation
deriving DecidableEq, BEq, Repr

/-- The update security agent, embedded from `UPDATE_SECURITY_AGENT_PROMPT`:
safe exactly when the mutation uses only `$set` and the filter is non-empty. -/
def updateSecAgent (q : UpdateQuery) : SecurityCheck :=
  if !(mutationOnlySet q.update) then
    { isSafe := false, reason := "Update uses a dangerous operator other than $set." }
  else if q.filter.isEmpty then
    { isSafe := false, reason := "Update filter is empty. This is too broad." }
  else
    { isSafe := true, reason := "Update uses $set operator and a specific filter." }

/-- The `{ isUseful, confidence, suggestion }` object the validation agent
returns. -/
structure Validation where
  isUseful : Bool
  confidence : ℚ
  suggestion : String
deriving DecidableEq, Repr

/-- The model calls of the NL-to-query pipeline, as oracles: the query agent,
the optimization agent and the validation agent are untrusted language-model
outputs, functions of the text they are shown. -/
structure NlOracle where
  translate : String → Filter
  optimize : Filter → Filter
  validate : String → Validation

/-- The result object `runNlToQueryPipeline` returns. -/
structure NlResult where
  type : String
  confidence : ℚ
  data : List Doc
  mongoQuery : Filter
  securityCheck : SecurityCheck
  validation : Validation
deriving DecidableEq, Repr

/-- `runNlToQueryPipeline` from `gemini_backend.js`: query agent, security agent
on the query agent's output, optimization agent, validation agent, permission
gate, the `find` (projecting out `docEmbedding`), the audit insert, and the
result whose confidence is forced to 0 on an empty result set. -/
def runNlToQueryPipeline (no : NlOracle) (db : Db) (userInput collectionName : String)
    (user : User) : Outcome NlResult :=
  let mongoQuery := no.translate userInput
  let securityCheck := secAgent mongoQuery
  let tr0 := [Event.modelCall "query", Event.modelCall "security"]
  if securityCheck.isSafe then
    let optimizedQuery := no.optimize mongoQuery
    let validation := no.validate userInput
    let tr1 := tr0 ++ [Event.modelCall "optimization", Event.modelCall "validation",
      Event.permRead user.role]
    if hasPermission db user.role collectionName then
      let data := ((getColl db collectionName).filter (fun d => docMatches optimizedQuery d)).map
        stripEmbedding
      let db1 := insertAudit db
        (AuditEntry.queryEntry user.id user.role userInput optimizedQuery data.length)
      { result := Except.ok
          { type := "data"
            confidence := if data.length = 0 then 0 else validation.confidence
            data := data
            mongoQuery := optimizedQuery
            securityCheck := securityCheck
            validation := validation }
        db := db1
        trace := tr1 ++ [Event.find collectionName, Event.auditInsert] }
    else
      { result := Except.error (PipeError.accessDenied user.role collectionName)
        db := db
        trace := tr1 }
  else
    { result := Except.error (PipeError.securityRejected securityCheck.reason)
      db := db
      trace := tr0 }

/-- The external calls of the RAG pipeline, as oracles: the query-embedding
call, the store's vector search (scores included), and the answer-synthesis
model call. -/
structure RagOracle where
  embedQuery : String → List Int
  search : List Int → List Doc → List (Doc × ℚ)
  synthesize : String → List (Doc × ℚ) → String

/-- The result object `runRagPipeline` returns; `context` carries the retrieved
documents with `docEmbedding` projected out and their similarity scores. -/
structure RagResult where
  type : String
  confidence : ℚ
  answer : String
  context : List (Doc × ℚ)
deriving DecidableEq, Repr

/-- `runRagPipeline` from `gemini_backend.js`: embed the question, vector-search
the fixed `managers` collection (the function takes no collection name), early
exit with confidence 0 on no hits, otherwise call the completion endpoint to
synthesize an answer (traced as a model call) with the top hit's score as
confidence.  It touches neither the permission gate nor the audit log, and
never writes to the store. -/
def runRagPipeline (ro : RagOracle) (db : Db) (userInput : String) (user : User) :
    Outcome RagResult :=
  let queryVector := ro.embedQuery userInput
  let retrieved := (ro.search queryVector (getColl db "managers")).map
    (fun p => (stripEmbedding p.1, p.2))
  let tr := [Event.embedCall, Event.vectorSearch "managers"]
  match retrieved with
  | [] =>
      { result := Except.ok
          { type := "answer", confidence := 0
            answer := "I'm sorry, I couldn't find any relevant information in the database to answer that question."
            context := [] }
        db := db
        trace := tr }
  | top :: rest =>
      { result := Except.ok
          { type := "answer", confidence := top.2
            answer := ro.synthesize userInput (top :: rest)
            context := top :: rest }
        db := db
        trace := tr ++ [Event.modelCall "rag"] }

/-- The JS template in `createTextForEmbedding` renders a falsy attribute
(missing, empty string, the number 0) as `N/A`. -/
def fieldText (d : Doc) (k : String) : String :=
  match lookupAttr d.attrs k with
  | none => "N/A"
  | some (Value.str "") => "N/A"
  | some (Value.num 0) => "N/A"
  | some (Value.str s) => s
  | some (Value.num n) => toString n
  | some (Value.vec xs) => String.intercalate "," (xs.map toString)

/-- `createTextForEmbedding` (identical in the backend and the backfill script),
written directly in its whitespace-collapsed form. -/
def createTextForEmbedding (d : Doc) : String :=
  "Manager Name: " ++ fieldText d "Name" ++ ", CGPA: " ++ fieldText d "CGPA" ++
  ", Branch: " ++ fieldText d "Branch" ++ ", Role: " ++ fieldText d "Role" ++
  ", Company: " ++ fieldText d "Company" ++ ", CTC: " ++ fieldText d "CTC" ++
  " LPA, Details: " ++ fieldText d "Details"

/-- The declared embedding dimensionality constant (`EMBEDDING_DIMENSIONS`). -/
def EMBEDDING_DIMENSIONS : Nat := 768

/-- `collection.updateOne({ _id: id }, { $set: { docEmbedding: e } })`: overwrite
one document's stored embedding, leaving every other attribute in place. -/
def updateOneSetEmbedding (db : Db) (coll : String) (id : Nat) (e : List Int) : Db :=
  setColl db coll ((getColl db coll).map (fun d =>
    if d.id = id then { d with attrs := setAttr d.attrs "docEmbedding" (Value.vec e) } else d))

/-- The model calls of the update pipeline: the update agent's `{filter, update}`
output and the embedding client used by the re-sync loop. -/
structure UpdateOracle where
  translateUpdate : String → UpdateQuery
  embed : String → List Int

/-- The state a re-embedding loop run produces. -/
structure ReOut where
  db : Db
  count : Nat
  trace : List Event
deriving Repr

/-- The re-sync loop of `runUpdatePipeline`: for each fetched document, one
embedding call and one single-document write of `docEmbedding`, counting one
per iteration. -/
def reEmbedLoop (em : String → List Int) (db : Db) (coll : String) :
    List Doc → ReOut
  | [] => { db := db, count := 0, trace := [] }
  | d :: rest =>
      let e := em (createTextForEmbedding d)
      let db1 := updateOneSetEmbedding db coll d.id e
      let out := reEmbedLoop em db1 coll rest
      { db := out.db, count := out.count + 1
        trace := [Event.embedCall, Event.updateOne coll d.id] ++ out.trace }

/-- `collection.updateMany(filter, update)`: mutate every matching document. -/
def applyUpdateManyDb (db : Db) (coll : String) (q : UpdateQuery) : Db :=
  setColl db coll ((getColl db coll).map (fun d =>
    if docMatches q.filter d then applyMutation d q.update else d))

/-- Mongo's `modifiedCount`: the matched documents the mutation actually
changed. -/
def modifiedCountOf (db : Db) (coll : String) (q : UpdateQuery) : Nat :=
  ((getColl db coll).filter (fun d =>
    docMatches q.filter d && decide (applyMutation d q.update ≠ d))).length

/-- The result object `runUpdatePipeline` returns. -/
structure UpdateResult where
  success : Bool
  modifiedCount : Nat
  reEmbeddedCount : Nat
deriving DecidableEq, Repr

/-- `runUpdatePipeline` from `gemini_backend.js`: permission gate first, then the
update agent, the update security agent on its output, the `updateMany`, the
conditional re-embedding sweep over the documents matching the filter after the
update, and the audit insert. -/
def runUpdatePipeline (uo : UpdateOracle) (db : Db) (userInput collectionName : String)
    (user : User) : Outcome UpdateResult :=
  if hasPermission db user.role collectionName then
    let updateQuery := uo.translateUpdate userInput
    let securityCheck := updateSecAgent updateQuery
    let tr0 := [Event.permRead user.role, Event.modelCall "update",
      Event.modelCall "updateSecurity"]
    if securityCheck.isSafe then
      let db1 := applyUpdateManyDb db collectionName updateQuery
      let modifiedCount := modifiedCountOf db collectionName updateQuery
      let re :=
        if 0 < modifiedCount then
          reEmbedLoop uo.embed db1 collectionName
            ((getColl db1 collectionName).filter (fun d => docMatches updateQuery.filter d))
        else
          { db := db1, count := 0, trace := [] }
      let db2 := insertAudit re.db
        (AuditEntry.updateEntry user.id user.role userInput
          updateQuery.filter updateQuery.update modifiedCount)
      { result := Except.ok
          { success := true, modifiedCount := modifiedCount, reEmbeddedCount := re.count }
        db := db2
        trace := tr0 ++ [Event.updateMany collectionName] ++ re.trace ++ [Event.auditInsert] }
    else
      { result := Except.error (PipeError.securityRejected securityCheck.reason)
        db := db
        trace := tr0 }
  else
    { result := Except.error (PipeError.accessDenied user.role collectionName)
      db := db
      trace := [Event.permRead user.role] }

/-- The winner object of the hybrid endpoint: either pipeline's result. -/
inductive HybridResult where
  | nlToQuery (r : NlResult)
  | ragAnswer (r : RagResult)
deriving DecidableEq, Repr

/-- The hard-coded caller identity of both endpoints. -/
def hardcodedUser : User := { id := "user-123", role := "Admin" }

/-- The arbitration engine of `/api/hybrid-query`: both pipelines run for the
same `userInput` (`Promise.all` is modelled by sequencing — the RAG pipeline
only reads the `managers` collection, which the NL pipeline never writes); a
failure of either fails the whole request; the NL result wins exactly on a
strictly greater confidence.  The HTTP layer's missing-field check is outside
the engine and not modelled. -/
def hybridQuery (no : NlOracle) (ro : RagOracle) (db : Db)
    (userInput collectionName : String) : Outcome HybridResult :=
  let nlOut := runNlToQueryPipeline no db userInput collectionName hardcodedUser
  match nlOut.result with
  | Except.error e => { result := Except.error e, db := nlOut.db, trace := nlOut.trace }
  | Except.ok nlResult =>
    let ragOut := runRagPipeline ro nlOut.db userInput hardcodedUser
    match ragOut.result with
    | Except.error e =>
        { result := Except.error e, db := ragOut.db, trace := nlOut.trace ++ ragOut.trace }
    | Except.ok ragResult =>
        if nlResult.confidence > ragResult.confidence then
          { result := Except.ok (HybridResult.nlToQuery nlResult)
            db := ragOut.db, trace := nlOut.trace ++ ragOut.trace }
        else
          { result := Except.ok (HybridResult.ragAnswer ragResult)
            db := ragOut.db, trace := nlOut.trace ++ ragOut.trace }

/-- The embedding client of the backfill script (`createEmbeddings`), which
returns null — here `none` — on a transport error instead of throwing. -/
structure BackfillOracle where
  embed : String → Option (List Int)

/-- The per-document loop of the backfill script: skip on a null embedding, skip
(discard) on a dimensionality mismatch, otherwise persist and count. -/
def backfillLoop (o : BackfillOracle) (db : Db) : List Doc → Db × Nat
  | [] => (db, 0)
  | d :: rest =>
      match o.embed (createTextForEmbedding d) with
      | none => backfillLoop o db rest
      | some e =>
          if e.length ≠ EMBEDDING_DIMENSIONS then
            backfillLoop o db rest
          else
            let db1 := updateOneSetEmbedding db "managers" d.id e
            let out := backfillLoop o db1 rest
            (out.1, out.2 + 1)

/-- `createEmbeddings` from the backfill script: process every `managers`
document lacking a stored embedding. -/
def createEmbeddings (o : BackfillOracle) (db : Db) : Db × Nat :=
  let documentsToProcess :=
    (getColl db "managers").filter (fun d => (lookupAttr d.attrs "docEmbedding").isNone)
  if documentsToProcess.isEmpty then (db, 0) else backfillLoop o db documentsToProcess

/-! Concrete fixtures used by witnesses and counterexamples. -/

/-- A sample manager document. -/
def mgrDoc1 : Doc :=
  { id := 1, attrs := [("Name", Value.str "Kangan Gupta"), ("Branch", Value.str "CO"),
      ("CTC", Value.num 70)] }

/-- A second sample manager document. -/
def mgrDoc2 : Doc :=
  { id := 2, attrs := [("Name", Value.str "Vidit Tayal"), ("Branch", Value.str "CO"),
      ("CTC", Value.num 50)] }

/-- A store with two managers, a wildcard `Admin` role and a `Guest` role that
may not access `managers`. -/
def baseDb : Db :=
  { colls := [("managers", [mgrDoc1, mgrDoc2]), ("reports", [])]
    permissions := [{ role := "Admin", allowedCollections := ["*"] },
      { role := "Guest", allowedCollections := ["reports"] }]
    auditLogs := [] }

/-- A well-behaved NL-to-query oracle: a safe branch filter, an identity
optimizer, specificity 4/5. -/
def nlOracleA : NlOracle :=
  { translate := fun _ => [("Branch", Cond.eqv (Value.str "CO"))]
    optimize := fun f => f
    validate := fun _ => { isUseful := true, confidence := mkRat 4 5, suggestion := "ok" } }

/-- A RAG oracle whose vector search scores every stored manager 4/5. -/
def ragOracleA : RagOracle :=
  { embedQuery := fun _ => [1, 2]
    search := fun _ docs => docs.map (fun d => (d, mkRat 4 5))
    synthesize := fun _ _ => "answer text" }

/-- Whether a document's stored embedding, if any, has the declared
dimensionality. -/
def embOk (d : Doc) : Bool :=
  match lookupAttr d.attrs "docEmbedding" with
  | some (Value.vec v) => v.length == EMBEDDING_DIMENSIONS
  | _ => true

/-- Every stored embedding of the `managers` collection has the declared
dimensionality. -/
def embeddingsWellSized (db : Db) : Bool :=
  (getColl db "managers").all embOk

/-- An NL-to-query oracle whose optimization agent rewrites the safe translated
filter into a `$where` filter; used to exercise the unchecked Optimize-Execute
gap. -/
def nlOracleBad : NlOracle :=
  { translate := fun _ => [("Name", Cond.nameRegex "Kangan Gupta")]
    optimize := fun _ => [("x", Cond.whereJs "sleepForever()")]
    validate := fun _ => { isUseful := true, confidence := mkRat 9 10, suggestion := "specific" } }

/-- An update oracle: a branch filter matching both sample managers, a `$set`
of `CTC` to 70 (a value `mgrDoc1` already has), and an embedding client
returning a vector of length 1. -/
def uoC7 : UpdateOracle :=
  { translateUpdate := fun _ =>
      { filter := [("Branch", Cond.eqv (Value.str "CO"))]
        update := [("$set", [("CTC", Value.num 70)])] }
    embed := fun _ => [5] }

/-- The structured-query result of `nlOracleA` on `baseDb` over `managers`. -/
def nlResultA : NlResult :=
  { type := "data", confidence := mkRat 4 5, data := [mgrDoc1, mgrDoc2]
    mongoQuery := [("Branch", Cond.eqv (Value.str "CO"))]
    securityCheck := { isSafe := true, reason := "Query uses safe find operators." }
    validation := { isUseful := true, confidence := mkRat 4 5, suggestion := "ok" } }

/-- The retrieval result of `ragOracleA` on `baseDb`. -/
def ragResultA : RagResult :=
  { type := "answer", confidence := mkRat 4 5, answer := "answer text"
    context := [(mgrDoc1, mkRat 4 5), (mgrDoc2, mkRat 4 5)] }

/-- The structured-query result of `nlOracleBad` on `baseDb`: the run completes
with the dangerous optimizer output as the executed filter. -/
def nlResultBad : NlResult :=
  { type := "data", confidence := 0, data := []
    mongoQuery := [("x", Cond.whereJs "sleepForever()")]
    securityCheck := { isSafe := true, reason := "Query uses safe find operators." }
    validation := { isUseful := true, confidence := mkRat 9 10, suggestion := "specific" } }

/-- An update oracle returning the refusal signal: empty filter, here with a
non-empty mutation to exercise the filter check alone. -/
def uoEmptyFilter : UpdateOracle :=
  { translateUpdate := fun _ =>
      { filter := [], update := [("$set", [("CTC", Value.num 50)])] }
    embed := fun _ => [] }

/-- A caller with the `Guest` role, which may not access `managers`. -/
def guestUser : User := { id := "u-1", role := "Guest" }

/-- A backfill embedding client that always returns a vector of length 1. -/
def bfOracleShort : BackfillOracle := { embed := fun _ => some [9] }

/-! Helper lemmas. -/

/-- The update security agent is safe exactly on a `$set`-only mutation with a
non-empty filter. -/
theorem updateSecAgent_isSafe (q : UpdateQuery) :
    (updateSecAgent q).isSafe = (mutationOnlySet q.update && !q.filter.isEmpty) := by
  unfold updateSecAgent
  by_cases hm : mutationOnlySet q.update
  · by_cases hf : q.filter.isEmpty <;> simp [hm, hf]
  · simp [hm]

/-- Reading back the collection just written. -/
theorem getCollList_setCollList_self (colls : List (String × List Doc)) (c : String)
    (l : List Doc) : getCollList (setCollList colls c l) c = l := by
  induction colls with
  | nil => simp [setCollList, getCollList]
  | cons p rest ih =>
      by_cases h : (p.1 == c) = true
      · simp [setCollList, getCollList, h]
      · simp [setCollList, getCollList, h, ih]

/-- Writing one collection leaves every other collection unchanged. -/
theorem getCollList_setCollList_ne (colls : List (String × List Doc)) (c c' : String)
    (l : List Doc) (h : c' ≠ c) :
    getCollList (setCollList colls c l) c' = getCollList colls c' := by
  induction colls with
  | nil =>
      have h1 : (c == c') = false := by
        simp only [beq_eq_false_iff_ne]
        exact Ne.symm h
      simp [setCollList, getCollList, h1]
  | cons p rest ih =>
      by_cases hp : (p.1 == c) = true
      · have hpc : p.1 = c := by simpa using hp
        have h1 : (p.1 == c') = false := by
          rw [hpc]
          simp only [beq_eq_false_iff_ne]
          exact Ne.symm h
        simp [setCollList, getCollList, hp, h1]
      · simp [setCollList, getCollList, hp, ih]

theorem getColl_setColl_self (db : Db) (c : String) (l : List Doc) :
    getColl (setColl db c l) c = l :=
  getCollList_setCollList_self db.colls c l

theorem getColl_setColl_ne (db : Db) (c c' : String) (l : List Doc) (h : c' ≠ c) :
    getColl (setColl db c l) c' = getColl db c' :=
  getCollList_setCollList_ne db.colls c c' l h

/-- In-place replacement of an existing key makes it the lookup result. -/
theorem lookupAttr_map_set (attrs : List (String × Value)) (k : String) (v : Value)
    (h : attrs.any (fun p => p.1 == k) = true) :
    lookupAttr (attrs.map (fun p => if p.1 == k then (k, v) else p)) k = some v := by
  induction attrs with
  | nil => simp at h
  | cons p rest ih =>
      obtain ⟨pk, pv⟩ := p
      by_cases hp : (pk == k) = true
      · rw [List.map_cons]
        simp only [hp, if_true]
        simp [lookupAttr]
      · have hpk : (pk == k) = false := by simpa using hp
        have hrest : rest.any (fun p => p.1 == k) = true := by
          simpa [List.any_cons, hpk] using h
        rw [List.map_cons]
        simp only [hpk, Bool.false_eq_true, if_false]
        rw [lookupAttr, hpk]
        simp only [Bool.false_eq_true, if_false]
        exact ih hrest

/-- Appending a fresh key makes it the lookup result. -/
theorem lookupAttr_append_self (attrs : List (String × Value)) (k : String) (v : Value)
    (h : attrs.any (fun p => p.1 == k) = false) :
    lookupAttr (attrs ++ [(k, v)]) k = some v := by
  induction attrs with
  | nil => simp [lookupAttr]
  | cons p rest ih =>
      obtain ⟨pk, pv⟩ := p
      have hall := h
      simp only [List.any_cons, Bool.or_eq_false_iff] at hall
      rw [List.cons_append, lookupAttr, hall.1]
      simp only [Bool.false_eq_true, if_false]
      exact ih hall.2

/-- Looking up the key just `$set`. -/
theorem lookupAttr_setAttr_self (attrs : List (String × Value)) (k : String) (v : Value) :
    lookupAttr (setAttr attrs k v) k = some v := by
  unfold setAttr
  by_cases h : attrs.any (fun p => p.1 == k) = true
  · simp only [h, if_true]
    exact lookupAttr_map_set attrs k v h
  · simp only [h, if_false]
    exact lookupAttr_append_self attrs k v (Bool.eq_false_iff.mpr h)

/-- In-place replacement of a key is invisible after erasing that key. -/
theorem eraseKey_map_set (attrs : List (String × Value)) (k : String) (v : Value) :
    eraseKey k (attrs.map (fun p => if p.1 == k then (k, v) else p)) = eraseKey k attrs := by
  induction attrs with
  | nil => rfl
  | cons p rest ih =>
      obtain ⟨pk, pv⟩ := p
      by_cases hp : (pk == k) = true
      · rw [List.map_cons]
        simp only [hp, if_true]
        simp only [eraseKey, List.filter_cons] at ih ⊢
        simp only [hp, beq_self_eq_true, Bool.not_true, Bool.false_eq_true, if_false]
        exact ih
      · have hpk : (pk == k) = false := by simpa using hp
        rw [List.map_cons]
        simp only [hpk, Bool.false_eq_true, if_false]
        simp only [eraseKey, List.filter_cons] at ih ⊢
        simp only [hpk, Bool.not_false, if_true]
        rw [ih]

/-- A `$set` of a key leaves the rest of the attribute list unchanged. -/
theorem eraseKey_setAttr (attrs : List (String × Value)) (k : String) (v : Value) :
    eraseKey k (setAttr attrs k v) = eraseKey k attrs := by
  unfold setAttr
  by_cases h : attrs.any (fun p => p.1 == k) = true
  · simp only [h, if_true]
    exact eraseKey_map_set attrs k v
  · simp only [h, if_false]
    simp [eraseKey, List.filter_append]

/-- The re-embedding loop re-embeds exactly the documents it was given. -/
theorem reEmbedLoop_count (em : String → List Int) (db : Db) (coll : String)
    (docs : List Doc) : (reEmbedLoop em db coll docs).count = docs.length := by
  induction docs generalizing db with
  | nil => rfl
  | cons d rest ih => simp [reEmbedLoop, ih]

/-! Claim theorems. -/

/-- Claim C5: in every structured-query pipeline run that completes, a query
returning zero records forces the result confidence to 0 regardless of the
specificity score, and a query returning at least one record makes the
confidence equal the validation agent's specificity score. -/
theorem claim_C5_zero_result_confidence (no : NlOracle) (db : Db)
    (userInput collectionName : String) (user : User) (r : NlResult)
    (h : (runNlToQueryPipeline no db userInput collectionName user).result = Except.ok r) :
    (r.data = [] → r.confidence = 0) ∧
    (r.data ≠ [] → r.confidence = (no.validate userInput).confidence) := by
  by_cases hs : (secAgent (no.translate userInput)).isSafe = true
  · by_cases hp : hasPermission db user.role collectionName = true
    · simp only [runNlToQueryPipeline, hs, hp, if_true] at h
      have hr := (Except.ok.injEq _ _).mp h
      have hconf : r.confidence =
          if r.data.length = 0 then 0 else (no.validate userInput).confidence := by
        rw [← hr]
      constructor
      · intro hd
        rw [hconf, hd]
        simp
      · intro hd
        have hne : ¬ r.data.length = 0 := by
          simpa [List.length_eq_zero] using hd
        rw [hconf]
        simp [hne]
    · simp [runNlToQueryPipeline, hs, hp] at h
  · simp [runNlToQueryPipeline, hs] at h

/-- Claim C3: whenever a run of the update pipeline reaches the translation
stage (the permission gate passed) and the translated update has an empty
filter or a mutation using an operator other than `$set`, the update security
agent rejects it and the pipeline aborts with a security rejection before
`updateMany` runs, leaving the store unchanged. -/
theorem claim_C3_update_security_rejects (uo : UpdateOracle) (db : Db)
    (userInput collectionName : String) (user : User)
    (hperm : hasPermission db user.role collectionName = true)
    (hbad : (uo.translateUpdate userInput).filter = [] ∨
      mutationOnlySet (uo.translateUpdate userInput).update = false) :
    (updateSecAgent (uo.translateUpdate userInput)).isSafe = false ∧
    (∃ reason, (runUpdatePipeline uo db userInput collectionName user).result =
      Except.error (PipeError.securityRejected reason)) ∧
    (runUpdatePipeline uo db userInput collectionName user).db = db ∧
    Event.updateMany collectionName ∉
      (runUpdatePipeline uo db userInput collectionName user).trace := by
  have hrej : (updateSecAgent (uo.translateUpdate userInput)).isSafe = false := by
    rw [updateSecAgent_isSafe]
    rcases hbad with hf | hm
    · simp [hf]
    · simp [hm]
  refine ⟨hrej, ?_, ?_, ?_⟩
  · refine ⟨(updateSecAgent (uo.translateUpdate userInput)).reason, ?_⟩
    simp [runUpdatePipeline, hperm, hrej]
  · simp [runUpdatePipeline, hperm, hrej]
  · simp [runUpdatePipeline, hperm, hrej]

/-- Claim C6: when the role has no permission record, or its record lists
neither the wildcard nor the target collection, the update pipeline throws an
access denial with only the permission read in its trace (so before any model
call) and leaves the store unchanged; the structured-query pipeline never runs
its `find` against the collection, leaves the store unchanged, and — whenever
its run reaches the permission gate (the safety stage passed) — throws the same
access denial. -/
theorem claim_C6_access_denied_ordering (no : NlOracle) (uo : UpdateOracle) (db : Db)
    (userInput collectionName : String) (user : User)
    (hperm : hasPermission db user.role collectionName = false) :
    (runUpdatePipeline uo db userInput collectionName user).result =
      Except.error (PipeError.accessDenied user.role collectionName) ∧
    (runUpdatePipeline uo db userInput collectionName user).trace =
      [Event.permRead user.role] ∧
    (runUpdatePipeline uo db userInput collectionName user).db = db ∧
    Event.find collectionName ∉
      (runNlToQueryPipeline no db userInput collectionName user).trace ∧
    (runNlToQueryPipeline no db userInput collectionName user).db = db ∧
    ((secAgent (no.translate userInput)).isSafe = true →
      (runNlToQueryPipeline no db userInput collectionName user).result =
        Except.error (PipeError.accessDenied user.role collectionName)) := by
  refine ⟨?_, ?_, ?_, ?_, ?_, ?_⟩
  · simp [runUpdatePipeline, hperm]
  · simp [runUpdatePipeline, hperm]
  · simp [runUpdatePipeline, hperm]
  · by_cases hs : (secAgent (no.translate userInput)).isSafe = true
    · simp [runNlToQueryPipeline, hs, hperm]
    · simp [runNlToQueryPipeline, hs]
  · by_cases hs : (secAgent (no.translate userInput)).isSafe = true
    · simp [runNlToQueryPipeline, hs, hperm]
    · simp [runNlToQueryPipeline, hs]
  · intro hs
    simp [runNlToQueryPipeline, hs, hperm]

/-- Claim C4: with both pipelines completed, the arbitration engine surfaces the
structured-query result exactly when its confidence is strictly greater than
the retrieval result's confidence, and on equal confidence the retrieval result
is surfaced. -/
theorem claim_C4_arbitration_tiebreak (no : NlOracle) (ro : RagOracle) (db : Db)
    (userInput collectionName : String) (nlR : NlResult) (ragR : RagResult)
    (h1 : (runNlToQueryPipeline no db userInput collectionName hardcodedUser).result =
      Except.ok nlR)
    (h2 : (runRagPipeline ro
        (runNlToQueryPipeline no db userInput collectionName hardcodedUser).db
        userInput hardcodedUser).result = Except.ok ragR) :
    ((hybridQuery no ro db userInput collectionName).result =
        Except.ok (HybridResult.nlToQuery nlR) ↔ nlR.confidence > ragR.confidence) ∧
    (nlR.confidence = ragR.confidence →
      (hybridQuery no ro db userInput collectionName).result =
        Except.ok (HybridResult.ragAnswer ragR)) := by
  have hout : (hybridQuery no ro db userInput collectionName).result =
      if nlR.confidence > ragR.confidence then Except.ok (HybridResult.nlToQuery nlR)
      else Except.ok (HybridResult.ragAnswer ragR) := by
    simp only [hybridQuery, h1, h2]
    by_cases hc : nlR.confidence > ragR.confidence
    · simp [hc]
    · simp [hc]
  constructor
  · rw [hout]
    by_cases hc : nlR.confidence > ragR.confidence
    · simp [hc]
    · simp [hc]
  · intro he
    have hc : ¬ nlR.confidence > ragR.confidence := by
      rw [he]
      exact lt_irrefl _
    rw [hout]
    simp [hc]

/-- Writing a collection does not touch the permission records. -/
theorem setColl_permissions (db : Db) (c : String) (l : List Doc) :
    (setColl db c l).permissions = db.permissions := rfl

/-- Writing a collection does not touch the audit log. -/
theorem setColl_auditLogs (db : Db) (c : String) (l : List Doc) :
    (setColl db c l).auditLogs = db.auditLogs := rfl

/-- A single-document embedding overwrite changes no document identity and no
attribute other than `docEmbedding`, in any collection. -/
theorem updateOneSetEmbedding_frame (db : Db) (coll : String) (id : Nat) (e : List Int)
    (c : String) :
    (getColl (updateOneSetEmbedding db coll id e) c).map
        (fun d => (d.id, eraseKey "docEmbedding" d.attrs)) =
      (getColl db c).map (fun d => (d.id, eraseKey "docEmbedding" d.attrs)) := by
  unfold updateOneSetEmbedding
  by_cases hc : c = coll
  · subst hc
    rw [getColl_setColl_self, List.map_map]
    apply List.map_congr_left
    intro d _
    by_cases hid : d.id = id
    · simp [Function.comp, hid, eraseKey_setAttr]
    · simp [Function.comp, hid]
  · rw [getColl_setColl_ne db coll c _ hc]

/-- Claim C10: the re-embedding loop leaves every document's identity and every
attribute other than `docEmbedding` unchanged, in every collection, and touches
neither the permission records nor the audit log. -/
theorem claim_C10_reembed_frame (em : String → List Int) (db : Db) (coll : String)
    (docs : List Doc) (c : String) :
    (getColl (reEmbedLoop em db coll docs).db c).map
        (fun d => (d.id, eraseKey "docEmbedding" d.attrs)) =
      (getColl db c).map (fun d => (d.id, eraseKey "docEmbedding" d.attrs)) ∧
    (reEmbedLoop em db coll docs).db.permissions = db.permissions ∧
    (reEmbedLoop em db coll docs).db.auditLogs = db.auditLogs := by
  induction docs generalizing db with
  | nil => exact ⟨rfl, rfl, rfl⟩
  | cons d rest ih =>
      have step := ih (updateOneSetEmbedding db coll d.id (em (createTextForEmbedding d)))
      have hdb : (reEmbedLoop em db coll (d :: rest)).db =
          (reEmbedLoop em (updateOneSetEmbedding db coll d.id
            (em (createTextForEmbedding d))) coll rest).db := rfl
      refine ⟨?_, ?_, ?_⟩
      · rw [hdb, step.1]
        exact updateOneSetEmbedding_frame db coll d.id (em (createTextForEmbedding d)) c
      · rw [hdb, step.2.1]
        exact setColl_permissions db coll _
      · rw [hdb, step.2.2]
        exact setColl_auditLogs db coll _

/-- Claim C2 (amended): the retrieval pipeline — though it calls the embedding
and completion clients — leaves the store untouched, never reads the permission
gate, and never writes an audit entry, in every run. -/
theorem claim_C2_amended_rag_no_gate_no_audit (ro : RagOracle) (db : Db)
    (userInput : String) (user : User) :
    (runRagPipeline ro db userInput user).db = db ∧
    Event.auditInsert ∉ (runRagPipeline ro db userInput user).trace ∧
    (∀ role, Event.permRead role ∉ (runRagPipeline ro db userInput user).trace) := by
  simp only [runRagPipeline]
  split
  · refine ⟨rfl, by simp, ?_⟩
    intro role
    simp
  · refine ⟨rfl, by simp, ?_⟩
    intro role
    simp

/-- Claim C9 (amended): the retrieval pipeline's result is unchanged by
replacing the contents of any collection other than `managers` — it searches
the fixed `managers` collection, not a caller-chosen one. -/
theorem claim_C9_amended_rag_fixed_collection (ro : RagOracle) (db : Db)
    (userInput : String) (user : User) (c : String) (docs : List Doc)
    (h : c ≠ "managers") :
    (runRagPipeline ro (setColl db c docs) userInput user).result =
      (runRagPipeline ro db userInput user).result := by
  simp only [runRagPipeline]
  rw [getColl_setColl_ne db c "managers" docs (Ne.symm h)]
  cases (ro.search (ro.embedQuery userInput) (getColl db "managers")).map
      (fun p => (stripEmbedding p.1, p.2)) with
  | nil => rfl
  | cons top rest => rfl

/-- Claim C1 (amended): in every completed structured-query run, the filter the
safety agent passed is the translation agent's output, while the filter that
was executed (returned as `mongoQuery`) is the optimization agent's output,
which is not re-validated. -/
theorem claim_C1_amended_safety_checks_translate_output (no : NlOracle) (db : Db)
    (userInput collectionName : String) (user : User) (r : NlResult)
    (h : (runNlToQueryPipeline no db userInput collectionName user).result = Except.ok r) :
    (secAgent (no.translate userInput)).isSafe = true ∧
    r.securityCheck = secAgent (no.translate userInput) ∧
    r.mongoQuery = no.optimize (no.translate userInput) := by
  by_cases hs : (secAgent (no.translate userInput)).isSafe = true
  · by_cases hp : hasPermission db user.role collectionName = true
    · simp only [runNlToQueryPipeline, hs, hp, if_true] at h
      have hr := (Except.ok.injEq _ _).mp h
      refine ⟨hs, ?_, ?_⟩
      · rw [← hr]
      · rw [← hr]
    · simp [runNlToQueryPipeline, hs, hp] at h
  · simp [runNlToQueryPipeline, hs] at h

/-- Claim C7 (amended): in every completed update run, no re-embedding happens
when nothing was modified, and as soon as at least one record was modified the
`reEmbeddedCount` equals the number of records matching the translated filter
after the update (not the number of modified records). -/
theorem claim_C7_amended_reembed_counts (uo : UpdateOracle) (db : Db)
    (userInput collectionName : String) (user : User) (r : UpdateResult)
    (h : (runUpdatePipeline uo db userInput collectionName user).result = Except.ok r) :
    (r.modifiedCount = 0 → r.reEmbeddedCount = 0) ∧
    (0 < r.modifiedCount → r.reEmbeddedCount =
      ((getColl (applyUpdateManyDb db collectionName (uo.translateUpdate userInput))
          collectionName).filter
        (fun d => docMatches (uo.translateUpdate userInput).filter d)).length) := by
  by_cases hperm : hasPermission db user.role collectionName = true
  · by_cases hsafe : (updateSecAgent (uo.translateUpdate userInput)).isSafe = true
    · simp only [runUpdatePipeline, hperm, hsafe, if_true] at h
      have hr := (Except.ok.injEq _ _).mp h
      have hmod : r.modifiedCount =
          modifiedCountOf db collectionName (uo.translateUpdate userInput) := by
        rw [← hr]
      by_cases hm : 0 < modifiedCountOf db collectionName (uo.translateUpdate userInput)
      · have hre : r.reEmbeddedCount =
            (reEmbedLoop uo.embed
              (applyUpdateManyDb db collectionName (uo.translateUpdate userInput))
              collectionName
              ((getColl (applyUpdateManyDb db collectionName (uo.translateUpdate userInput))
                  collectionName).filter
                (fun d => docMatches (uo.translateUpdate userInput).filter d))).count := by
          rw [← hr]
          simp [hm]
        constructor
        · intro h0
          rw [hmod] at h0
          omega
        · intro _
          rw [hre, reEmbedLoop_count]
      · have hm0 : modifiedCountOf db collectionName (uo.translateUpdate userInput) = 0 := by
          omega
        have hre : r.reEmbeddedCount = 0 := by
          rw [← hr]
          simp [hm]
        constructor
        · intro _
          exact hre
        · intro h0
          rw [hmod, hm0] at h0
          omega
    · simp [runUpdatePipeline, hperm, hsafe] at h
  · simp [runUpdatePipeline, hperm] at h

/-- A single-document embedding overwrite with a right-sized vector preserves
the dimensionality invariant of the `managers` collection. -/
theorem updateOneSetEmbedding_wellSized (db : Db) (id : Nat) (e : List Int)
    (hlen : e.length = EMBEDDING_DIMENSIONS)
    (h : embeddingsWellSized db = true) :
    embeddingsWellSized (updateOneSetEmbedding db "managers" id e) = true := by
  unfold embeddingsWellSized at h ⊢
  unfold updateOneSetEmbedding
  rw [getColl_setColl_self]
  rw [List.all_eq_true] at h ⊢
  intro d hd
  rw [List.mem_map] at hd
  obtain ⟨d0, hd0, hEq⟩ := hd
  by_cases hid : d0.id = id
  · rw [← hEq]
    simp only [hid, if_true]
    unfold embOk
    rw [lookupAttr_setAttr_self]
    simp [hlen]
  · rw [← hEq]
    simp only [hid, if_false]
    exact h d0 hd0

/-- The backfill loop preserves the dimensionality invariant: it never persists
a vector of the wrong length. -/
theorem backfillLoop_wellSized (o : BackfillOracle) (docs : List Doc) (db : Db)
    (h : embeddingsWellSized db = true) :
    embeddingsWellSized (backfillLoop o db docs).1 = true := by
  induction docs generalizing db with
  | nil => simpa [backfillLoop] using h
  | cons d rest ih =>
      cases he : o.embed (createTextForEmbedding d) with
      | none =>
          simp only [backfillLoop, he]
          exact ih db h
      | some e =>
          by_cases hl : e.length ≠ EMBEDDING_DIMENSIONS
          · simp only [backfillLoop, he]
            rw [if_pos hl]
            exact ih db h
          · have hlen : e.length = EMBEDDING_DIMENSIONS := not_not.mp hl
            simp only [backfillLoop, he]
            rw [if_neg hl]
            exact ih _ (updateOneSetEmbedding_wellSized db d.id e hlen h)

/-- Claim C8 (amended): the backfill path discards (never persists) any
embedding whose length differs from the declared dimensionality constant: if
every stored `managers` embedding is well-sized before a backfill run, the same
holds afterwards, whatever vectors the embedding endpoint returns. -/
theorem claim_C8_amended_backfill_discards_mismatch (o : BackfillOracle) (db : Db)
    (h : embeddingsWellSized db = true) :
    embeddingsWellSized (createEmbeddings o db).1 = true := by
  simp only [createEmbeddings]
  split
  · exact h
  · exact backfillLoop_wellSized o _ db h

/-- Claim C1 counterexample: a completed structured-query run in which the
optimization agent rewrote the translated filter; the executed filter (returned
as `mongoQuery` and run by the `find`) is the optimizer's output, which does
NOT pass the safety check — the safety check validated only the translation
agent's output. -/
theorem claim_C1_counterexample :
    (runNlToQueryPipeline nlOracleBad baseDb "find Kangan" "managers" hardcodedUser).result =
      Except.ok nlResultBad ∧
    nlResultBad.mongoQuery = [("x", Cond.whereJs "sleepForever()")] ∧
    (secAgent nlResultBad.mongoQuery).isSafe = false ∧
    Event.find "managers" ∈
      (runNlToQueryPipeline nlOracleBad baseDb "find Kangan" "managers" hardcodedUser).trace := by
  decide

/-- Claim C2 counterexample: a full arbitration run in which the retrieval
pipeline executed and even won, yet the audit log holds exactly one entry (the
structured-query pipeline's), and the retrieval pipeline's trace contains
neither a permission read nor an audit insert. -/
theorem claim_C2_counterexample :
    (hybridQuery nlOracleA ragOracleA baseDb "find CO" "managers").result =
      Except.ok (HybridResult.ragAnswer ragResultA) ∧
    (hybridQuery nlOracleA ragOracleA baseDb "find CO" "managers").db.auditLogs =
      [AuditEntry.queryEntry "user-123" "Admin" "find CO"
        [("Branch", Cond.eqv (Value.str "CO"))] 2] ∧
    (runRagPipeline ragOracleA baseDb "find CO" hardcodedUser).trace =
      [Event.embedCall, Event.vectorSearch "managers", Event.modelCall "rag"] ∧
    (runRagPipeline ragOracleA baseDb "find CO" hardcodedUser).db.auditLogs = [] := by
  decide

/-- Claim C7 counterexample: a completed update run in which one record was
matched and modified (`modifiedCount = 1`) but two records match the filter at
re-fetch time, so `reEmbeddedCount = 2` — the re-embedded count does not equal
the number of matched, modified records. -/
theorem claim_C7_counterexample :
    (runUpdatePipeline uoC7 baseDb "set CO CTC to 70" "managers" hardcodedUser).result =
      Except.ok { success := true, modifiedCount := 1, reEmbeddedCount := 2 } ∧
    modifiedCountOf baseDb "managers" (uoC7.translateUpdate "set CO CTC to 70") = 1 ∧
    (2 : Nat) ≠ (1 : Nat) := by
  decide

/-- Claim C8 counterexample: a completed update run whose embedding client
returned a vector of length 1; the re-sync loop persists it into both records
with no dimensionality check and reports success rather than any error. -/
theorem claim_C8_counterexample :
    (runUpdatePipeline uoC7 baseDb "set CO CTC to 70" "managers" hardcodedUser).result =
      Except.ok { success := true, modifiedCount := 1, reEmbeddedCount := 2 } ∧
    (getColl (runUpdatePipeline uoC7 baseDb "set CO CTC to 70" "managers" hardcodedUser).db
        "managers").map (fun d => lookupAttr d.attrs "docEmbedding") =
      [some (Value.vec [5]), some (Value.vec [5])] ∧
    [(5 : Int)].length ≠ EMBEDDING_DIMENSIONS := by
  decide

/-- Claim C9 counterexample: a hybrid request naming the (empty) `reports`
collection; the surfaced retrieval result's context consists of the `managers`
documents — the retrieval pipeline searched the fixed `managers` collection,
not the caller's requested one. -/
theorem claim_C9_counterexample :
    (hybridQuery nlOracleA ragOracleA baseDb "find CO" "reports").result =
      Except.ok (HybridResult.ragAnswer ragResultA) ∧
    getColl baseDb "reports" = [] ∧
    ragResultA.context = [(mgrDoc1, mkRat 4 5), (mgrDoc2, mkRat 4 5)] ∧
    mgrDoc1 ∈ getColl baseDb "managers" := by
  decide

/-- Witness for claim C5's theorem at a concrete run. -/
theorem claim_C5_witness :
    (nlResultA.data = [] → nlResultA.confidence = 0) ∧
    (nlResultA.data ≠ [] →
      nlResultA.confidence = (nlOracleA.validate "find CO").confidence) :=
  claim_C5_zero_result_confidence nlOracleA baseDb "find CO" "managers" hardcodedUser
    nlResultA (by decide)

/-- Witness for claim C3's theorem at a concrete empty-filter update. -/
theorem claim_C3_witness :
    (updateSecAgent (uoEmptyFilter.translateUpdate "set all CTCs to 50")).isSafe = false ∧
    (∃ reason,
      (runUpdatePipeline uoEmptyFilter baseDb "set all CTCs to 50" "managers"
        hardcodedUser).result = Except.error (PipeError.securityRejected reason)) ∧
    (runUpdatePipeline uoEmptyFilter baseDb "set all CTCs to 50" "managers"
      hardcodedUser).db = baseDb ∧
    Event.updateMany "managers" ∉
      (runUpdatePipeline uoEmptyFilter baseDb "set all CTCs to 50" "managers"
        hardcodedUser).trace :=
  claim_C3_update_security_rejects uoEmptyFilter baseDb "set all CTCs to 50" "managers"
    hardcodedUser (by decide) (Or.inl rfl)

/-- Witness for claim C6's theorem at a concrete `Guest` request. -/
theorem claim_C6_witness :
    (runUpdatePipeline uoC7 baseDb "set CO CTC to 70" "managers" guestUser).result =
      Except.error (PipeError.accessDenied "Guest" "managers") ∧
    (runUpdatePipeline uoC7 baseDb "set CO CTC to 70" "managers" guestUser).trace =
      [Event.permRead "Guest"] ∧
    (runUpdatePipeline uoC7 baseDb "set CO CTC to 70" "managers" guestUser).db = baseDb ∧
    Event.find "managers" ∉
      (runNlToQueryPipeline nlOracleA baseDb "set CO CTC to 70" "managers" guestUser).trace ∧
    (runNlToQueryPipeline nlOracleA baseDb "set CO CTC to 70" "managers" guestUser).db =
      baseDb ∧
    ((secAgent (nlOracleA.translate "set CO CTC to 70")).isSafe = true →
      (runNlToQueryPipeline nlOracleA baseDb "set CO CTC to 70" "managers" guestUser).result =
        Except.error (PipeError.accessDenied "Guest" "managers")) :=
  claim_C6_access_denied_ordering nlOracleA uoC7 baseDb "set CO CTC to 70" "managers"
    guestUser (by decide)

/-- Witness for claim C4's theorem at a concrete tie (both confidences 4/5):
the retrieval result is surfaced. -/
theorem claim_C4_witness :
    ((hybridQuery nlOracleA ragOracleA baseDb "find CO" "managers").result =
        Except.ok (HybridResult.nlToQuery nlResultA) ↔
      nlResultA.confidence > ragResultA.confidence) ∧
    (nlResultA.confidence = ragResultA.confidence →
      (hybridQuery nlOracleA ragOracleA baseDb "find CO" "managers").result =
        Except.ok (HybridResult.ragAnswer ragResultA)) :=
  claim_C4_arbitration_tiebreak nlOracleA ragOracleA baseDb "find CO" "managers"
    nlResultA ragResultA (by decide) (by decide)

/-- Witness for claim C9's amended theorem at a concrete non-`managers`
collection. -/
theorem claim_C9_amended_witness :
    (runRagPipeline ragOracleA (setColl baseDb "reports" [mgrDoc1]) "hi"
      hardcodedUser).result = (runRagPipeline ragOracleA baseDb "hi" hardcodedUser).result :=
  claim_C9_amended_rag_fixed_collection ragOracleA baseDb "hi" hardcodedUser "reports"
    [mgrDoc1] (by decide)

/-- Witness for claim C1's amended theorem at the optimizer-rewrite run. -/
theorem claim_C1_amended_witness :
    (secAgent (nlOracleBad.translate "find Kangan")).isSafe = true ∧
    nlResultBad.securityCheck = secAgent (nlOracleBad.translate "find Kangan") ∧
    nlResultBad.mongoQuery = nlOracleBad.optimize (nlOracleBad.translate "find Kangan") :=
  claim_C1_amended_safety_checks_translate_output nlOracleBad baseDb "find Kangan" "managers"
    hardcodedUser nlResultBad (by decide)

/-- Witness for claim C7's amended theorem at the concrete update run. -/
theorem claim_C7_amended_witness :
    (({ success := true, modifiedCount := 1, reEmbeddedCount := 2 } :
        UpdateResult).modifiedCount = 0 →
      ({ success := true, modifiedCount := 1, reEmbeddedCount := 2 } :
        UpdateResult).reEmbeddedCount = 0) ∧
    (0 < ({ success := true, modifiedCount := 1, reEmbeddedCount := 2 } :
        UpdateResult).modifiedCount →
      ({ success := true, modifiedCount := 1, reEmbeddedCount := 2 } :
          UpdateResult).reEmbeddedCount =
        ((getColl (applyUpdateManyDb baseDb "managers"
            (uoC7.translateUpdate "set CO CTC to 70")) "managers").filter
          (fun d => docMatches (uoC7.translateUpdate "set CO CTC to 70").filter d)).length) :=
  claim_C7_amended_reembed_counts uoC7 baseDb "set CO CTC to 70" "managers" hardcodedUser
    { success := true, modifiedCount := 1, reEmbeddedCount := 2 } (by decide)

/-- Witness for claim C8's amended theorem at a concrete mismatching backfill
run. -/
theorem claim_C8_amended_witness :
    embeddingsWellSized (createEmbeddings bfOracleShort baseDb).1 = true :=
  claim_C8_amended_backfill_discards_mismatch bfOracleShort baseDb (by decide)

end QueryChain

